import Mathlib

/-!
Verification development for the cosmic-fountain debug-intelligence core.

The definitions below are a shallow embedding of the four engine components
of the repository: the local pattern engine (`local-pattern-engine.ts`), the
error-intelligence cache (`intelligence-cache.ts`), the cost-optimized Claude
interface with its usage tracker (`claude-interface.ts`), and the strategic
processing scheduler (`processing-scheduler.ts`), together with the MCP server
entry points `captureErrorContext` and `analyzeErrorPatterns` (`index.ts`).

Modelling conventions:
* JavaScript `Map` objects are embedded as association lists with
  insertion-order semantics (`jsSet` replaces in place or appends).
* Timestamps (`Date` values) are abstract natural numbers; `toDateString`
  day bucketing becomes an explicit `day : Nat` field.
* Monetary amounts and scores updated by weighted averages are rationals.
* A regular-expression `signature` is embedded as its test function
  `String → Bool` applied to the (lower-cased) text, since no claim depends
  on the regex language itself.
* Console logging and file persistence are side effects outside the state
  the claims constrain; where a claim mentions reporting, the emitted log
  lines are modelled explicitly.
-/

namespace CosmicFountain

/-- Does the character list `hay` start with `needle`? -/
def charsStartWith : List Char → List Char → Bool
  | _, [] => true
  | [], _ :: _ => false
  | a :: as, b :: bs => a == b && charsStartWith as bs

/-- Does the character list `hay` contain `needle` as a contiguous run? -/
def charsContain : List Char → List Char → Bool
  | [], needle => needle.isEmpty
  | a :: rest, needle => charsStartWith (a :: rest) needle || charsContain rest needle

/-- JavaScript `hay.includes(needle)` substring test. -/
def strIncludes (hay needle : String) : Bool :=
  charsContain hay.toList needle.toList

/-- JavaScript `toLowerCase()` on the character sequence (ASCII case fold,
which is all the source compares). -/
def jsToLower (s : String) : String :=
  String.mk (s.data.map Char.toLower)

/-! ## Local pattern engine (`local-pattern-engine.ts`) -/

/-- An error context as passed to `matchErrorPattern`; `environment_info` is
a JS object embedded as a key/value list (`[]` both for an absent object and
for `{}`, which behave identically in every use site). -/
structure ErrorContext where
  error_message : String
  stack_trace : Option String := none
  repo_context : String
  environment_info : List (String × String) := []
deriving DecidableEq

/-- A library entry (`ErrorPattern` interface). The regex `signature` is
embedded as its case-insensitive test function `sigTest`. -/
structure ErrorPattern where
  id : String
  type : String
  sigTest : String → Bool
  confidence_threshold : Nat
  common_causes : List String := []
  prevention_strategies : List String := []
  fix_templates : List String
  success_rate : Nat := 0

/-- A classifier result (`ErrorMatch` interface); the wall-clock
`processing_time` field is not modelled. -/
structure ErrorMatch where
  pattern_id : String
  pattern_type : String
  confidence : Nat
  suggested_actions : List String
deriving DecidableEq

/-- The `combinedText` computed by `matchErrorPattern`: the lower-cased
concatenation of message and stack trace. -/
def combinedText (ctx : ErrorContext) : String :=
  jsToLower (ctx.error_message ++ " " ++ ctx.stack_trace.getD "")

/-- The `calculateConfidence` scoring routine: base 70, +20 for a signature
match, +10 per aligned context hint (guarded by a truthiness test on
`repo_context`), capped at 100. -/
def calculateConfidence (p : ErrorPattern) (ctx : ErrorContext) (combined : String) : Nat :=
  let confidence : Nat := 70
  let confidence := if p.sigTest combined then confidence + 20 else confidence
  if ctx.repo_context ≠ "" then
    let repoContext := jsToLower ctx.repo_context
    let confidence :=
      if strIncludes p.type "python" && strIncludes repoContext "python" then
        confidence + 10 else confidence
    let confidence :=
      if strIncludes p.type "javascript" && strIncludes repoContext "node" then
        confidence + 10 else confidence
    let confidence :=
      if strIncludes p.type "docker" && strIncludes repoContext "docker" then
        confidence + 10 else confidence
    min confidence 100
  else
    min confidence 100

/-- The sentinel returned when no pattern qualifies. -/
def unmatchedResult : ErrorMatch :=
  { pattern_id := "unknown"
    pattern_type := "unmatched"
    confidence := 0
    suggested_actions := ["Queue for Claude analysis - novel error pattern"] }

/-- One iteration of the pattern loop in `matchErrorPattern`. -/
def matchStep (ctx : ErrorContext) (combined : String) (best : ErrorMatch)
    (p : ErrorPattern) : ErrorMatch :=
  if p.sigTest combined then
    let confidence := calculateConfidence p ctx combined
    if best.confidence < confidence ∧ p.confidence_threshold ≤ confidence then
      { pattern_id := p.id
        pattern_type := p.type
        confidence := confidence
        suggested_actions := p.fix_templates }
    else best
  else best

/-- The `matchErrorPattern` routine as a pure function of the pattern list
(JS `Map` iteration order = insertion order). The `signatureCache`
memoization layer is omitted: it stores and returns this very result, so a
call from any state computes the same value. -/
def matchErrorPattern (patterns : List ErrorPattern) (ctx : ErrorContext) : ErrorMatch :=
  patterns.foldl (matchStep ctx (combinedText ctx)) unmatchedResult

/-- Number of context hints of `calculateConfidence` that fire (0–3). -/
def contextHints (p : ErrorPattern) (ctx : ErrorContext) : Nat :=
  if ctx.repo_context ≠ "" then
    let repoContext := jsToLower ctx.repo_context
    (if strIncludes p.type "python" && strIncludes repoContext "python" then 1 else 0) +
    (if strIncludes p.type "javascript" && strIncludes repoContext "node" then 1 else 0) +
    (if strIncludes p.type "docker" && strIncludes repoContext "docker" then 1 else 0)
  else 0

/-- A pattern qualifies for an error when its signature matches the combined
text and its score reaches its own threshold. -/
def qualifies (ctx : ErrorContext) (p : ErrorPattern) : Prop :=
  p.sigTest (combinedText ctx) = true ∧
    p.confidence_threshold ≤ calculateConfidence p ctx (combinedText ctx)

instance (ctx : ErrorContext) (p : ErrorPattern) : Decidable (qualifies ctx p) := by
  unfold qualifies; infer_instance

/-- The match record built for a qualifying pattern `p`. -/
def matchResultOf (p : ErrorPattern) (ctx : ErrorContext) : ErrorMatch :=
  { pattern_id := p.id
    pattern_type := p.type
    confidence := calculateConfidence p ctx (combinedText ctx)
    suggested_actions := p.fix_templates }

/-- Shorthand for a qualifying score in the match-loop lemmas. -/
def confOf (ctx : ErrorContext) (p : ErrorPattern) : Nat :=
  calculateConfidence p ctx (combinedText ctx)

/-- Skip past the first occurrence of `needle` in `hay`, returning the
remaining characters (used to embed a `.*`-separated regex sequence). -/
def skipPast : List Char → List Char → Option (List Char)
  | [], needle => if needle.isEmpty then some [] else none
  | a :: rest, needle =>
      if charsStartWith (a :: rest) needle then some ((a :: rest).drop needle.length)
      else skipPast rest needle

/-- Ordered-occurrence test: each part occurs, in order, in the text
(the embedding of a regex of the shape `p1.*p2.*…`). -/
def containSeq (hay : List Char) : List String → Bool
  | [] => true
  | n :: rest =>
      match skipPast hay n.toList with
      | some remaining => containSeq remaining rest
      | none => false

/-- The `docker_port_already_in_use` library pattern of
`addDockerPatterns`; its signature regex
`port is already allocated|bind.*address already in use` is embedded as the
corresponding test function. -/
def dockerPortPattern : ErrorPattern :=
  { id := "docker_port_already_in_use"
    type := "docker_runtime_error"
    sigTest := fun s => strIncludes s "port is already allocated" ||
      containSeq s.toList ["bind", "address already in use"]
    confidence_threshold := 98
    common_causes := ["Port conflict with existing service", "Previous container not stopped"]
    prevention_strategies := ["Use docker-compose down before restart"]
    fix_templates := ["docker-compose down and docker-compose up",
      "Change the host port mapping", "Kill the process using the port"]
    success_rate := 97 }

/-- A concrete docker port-conflict error context. -/
def dockerCtx : ErrorContext :=
  { error_message := "Bind for 0.0.0.0:3000 failed: port is already allocated"
    repo_context := "docker-stack" }

/-! ## JS `Map` embedding -/

/-- JS `map.set(k, v)`: replace the entry in place when the key is present,
append otherwise. -/
def jsSet {α : Type} (m : List (String × α)) (k : String) (v : α) : List (String × α) :=
  if m.any (fun kv => kv.1 == k) then
    m.map (fun kv => if kv.1 == k then (k, v) else kv)
  else m ++ [(k, v)]

/-- JS `map.get(k)` (`none` for `undefined`). -/
def jsGet {α : Type} (m : List (String × α)) (k : String) : Option α :=
  (m.find? (fun kv => kv.1 == k)).map (fun kv => kv.2)

/-- JS `map.delete(k)`. -/
def jsDelete {α : Type} (m : List (String × α)) (k : String) : List (String × α) :=
  m.filter (fun kv => kv.1 != k)

/-- JS `map.values()` in insertion order. -/
def jsValues {α : Type} (m : List (String × α)) : List α :=
  m.map (fun kv => kv.2)

/-! ## Error intelligence cache (`intelligence-cache.ts`) -/

/-- A tiny JSON value universe for fields whose runtime type in the source is
a string or an array of strings (for example a discovered `fix_template`);
`jNull` stands for an absent (`undefined`) field. -/
inductive JsonVal where
  | jNull
  | jStr (s : String)
  | jArr (l : List String)
deriving DecidableEq

/-- JavaScript truthiness on `JsonVal`: `undefined` and the empty string are
falsy, every array (empty included) is truthy. -/
def JsonVal.truthy : JsonVal → Bool
  | .jNull => false
  | .jStr s => !s.isEmpty
  | .jArr _ => true

/-- A `CachedSolution` record. Scores are rationals (the source holds JS
numbers updated by weighted averages); timestamps are abstract instants. -/
structure CachedSolution where
  pattern_id : String
  solution_text : JsonVal
  confidence_score : ℚ
  success_rate : ℚ
  applicable_repos : List String
  fix_templates : List JsonVal
  prevention_strategies : List String
  cached_date : Nat
  usage_count : Nat
  last_accessed : Nat
deriving DecidableEq

/-- The in-memory state of `ErrorIntelligenceCache`: the `solutionCache` map
together with the running hit/miss counters. Disk persistence replays the
same records and is not modelled separately. -/
structure CacheState where
  solutionCache : List (String × CachedSolution) := []
  cacheHits : Nat := 0
  cacheMisses : Nat := 0
deriving DecidableEq

/-- The `getCachedSolution` routine: on a hit it bumps `usage_count`,
refreshes `last_accessed`, counts the hit and returns the updated record; on
a miss it counts the miss and returns `none`. -/
def getCachedSolution (st : CacheState) (patternId : String) (now : Nat) :
    Option CachedSolution × CacheState :=
  match jsGet st.solutionCache patternId with
  | some cached =>
      let updated := { cached with usage_count := cached.usage_count + 1
                                   last_accessed := now }
      (some updated,
        { st with solutionCache := jsSet st.solutionCache patternId updated
                  cacheHits := st.cacheHits + 1 })
  | none => (none, { st with cacheMisses := st.cacheMisses + 1 })

/-- A pattern entry of a gateway analysis result, as consumed by
`cacheAnalysisResults` (all fields may be absent in the parsed JSON). -/
structure DiscoveredPattern where
  pattern_id : Option String := none
  pattern_type : Option String := none
  confidence : Option ℚ := none
  root_cause : Option String := none
  prevention_strategy : Option String := none
  fix_template : JsonVal := .jNull
  applicable_repos : Option (List String) := none
deriving DecidableEq

/-- A novel-insight entry of a gateway analysis result. -/
structure Insight where
  insight : Option String := none
  confidence : Option ℚ := none
  applicable_repos : Option (List String) := none
  implementation_steps : Option (List String) := none
  prevention_recommendations : Option (List String) := none
deriving DecidableEq

/-- A parsed gateway analysis result as passed to `cacheAnalysisResults`. -/
structure AnalysisPayload where
  patterns : List DiscoveredPattern := []
  novel_insights : List Insight := []
deriving DecidableEq

/-- The md5-based `generatePatternId`; the hex digest is modelled by
`String.hash` (a deterministic stand-in — no claim depends on digest
values, only on determinism). -/
def generatePatternId (content : String) : String :=
  "pattern_" ++ toString content.hash

/-- The `JSON.stringify` of the identity fields fed to `generatePatternId`
for a discovered pattern, abstracted to a deterministic encoding. -/
def DiscoveredPattern.idContent (p : DiscoveredPattern) : String :=
  p.pattern_type.getD "" ++ "|" ++ p.root_cause.getD "" ++ "|" ++
    String.intercalate "," (p.applicable_repos.getD [])

/-- The `JSON.stringify` of the identity fields fed to `generatePatternId`
for an insight, abstracted to a deterministic encoding. -/
def Insight.idContent (i : Insight) : String :=
  i.insight.getD "" ++ "|" ++ String.intercalate "," (i.applicable_repos.getD [])

/-- JS `s || dflt` for an optional string (`undefined` and `""` are falsy). -/
def jsOrStr (v : Option String) (dflt : String) : String :=
  match v with
  | some s => if s.isEmpty then dflt else s
  | none => dflt

/-- JS `q || dflt` for an optional number (`undefined` and `0` are falsy). -/
def jsOrNum (v : Option ℚ) (dflt : ℚ) : ℚ :=
  match v with
  | some q => if q = 0 then dflt else q
  | none => dflt

/-- The `CachedSolution` built from a discovered pattern inside
`cacheAnalysisResults` (insert with default `success_rate` 85, usage 0). -/
def solutionOfPattern (p : DiscoveredPattern) (now : Nat) : CachedSolution :=
  { pattern_id := jsOrStr p.pattern_id (generatePatternId p.idContent)
    solution_text := if p.fix_template.truthy then p.fix_template
                     else .jStr "General debugging guidance"
    confidence_score := jsOrNum p.confidence 70
    success_rate := 85
    applicable_repos := p.applicable_repos.getD ["all"]
    fix_templates := match p.fix_template with
                     | .jArr l => l.map .jStr
                     | v => [v]
    prevention_strategies := match p.prevention_strategy with
                             | some s => if s.isEmpty then [] else [s]
                             | none => []
    cached_date := now
    usage_count := 0
    last_accessed := now }

/-- The `CachedSolution` built from a novel insight inside
`cacheAnalysisResults` (default `success_rate` 80). -/
def solutionOfInsight (i : Insight) (now : Nat) : CachedSolution :=
  { pattern_id := generatePatternId i.idContent
    solution_text := .jStr (jsOrStr i.insight "Novel debugging insight")
    confidence_score := jsOrNum i.confidence 75
    success_rate := 80
    applicable_repos := i.applicable_repos.getD ["all"]
    fix_templates := (i.implementation_steps.getD []).map .jStr
    prevention_strategies := i.prevention_recommendations.getD []
    cached_date := now
    usage_count := 0
    last_accessed := now }

/-- The private `cacheSolution` helper: store under `pattern_id`. -/
def cacheSolution (m : List (String × CachedSolution)) (sol : CachedSolution) :
    List (String × CachedSolution) :=
  jsSet m sol.pattern_id sol

/-- The `cacheAnalysisResults` routine: every discovered pattern and every
novel insight is written unconditionally (a plain `map.set`, overwriting a
previous record with the same id). -/
def cacheAnalysisResults (st : CacheState) (res : AnalysisPayload) (now : Nat) :
    CacheState :=
  let m := res.patterns.foldl (fun m p => cacheSolution m (solutionOfPattern p now))
    st.solutionCache
  let m := res.novel_insights.foldl (fun m i => cacheSolution m (solutionOfInsight i now)) m
  { st with solutionCache := m }

/-- The feedback update applied to one record inside
`updateSolutionEffectiveness`: 0.1-weighted moving average of the success
rate, confidence +2 capped at 100 on success and −5 floored at 50 on
failure. -/
def applyEffectivenessUpdate (solution : CachedSolution) (wasSuccessful : Bool)
    (now : Nat) : CachedSolution :=
  let weight : ℚ := 1/10
  let newSuccessRate : ℚ := if wasSuccessful then 100 else 0
  { solution with
      success_rate := solution.success_rate * (1 - weight) + newSuccessRate * weight
      confidence_score := if wasSuccessful then min 100 (solution.confidence_score + 2)
                          else max 50 (solution.confidence_score - 5)
      last_accessed := now }

/-- The `updateSolutionEffectiveness` routine (no-op when the id is absent). -/
def updateSolutionEffectiveness (st : CacheState) (patternId : String)
    (wasSuccessful : Bool) (now : Nat) : CacheState :=
  match jsGet st.solutionCache patternId with
  | some solution =>
      { st with
          solutionCache := jsSet st.solutionCache patternId
            (applyEffectivenessUpdate solution wasSuccessful now) }
  | none => st

/-- The `cleanupCache` routine: drop entries that are older than the 90-day
retention window with fewer than 3 uses, or chronically failing
(`success_rate < 30` with more than 5 uses). Time is in days. -/
def cleanupCache (st : CacheState) (now : Nat) : CacheState :=
  { st with solutionCache := st.solutionCache.filter (fun kv =>
      !((decide (kv.2.cached_date + 90 < now) && decide (kv.2.usage_count < 3)) ||
        (decide (kv.2.success_rate < 30) && decide (kv.2.usage_count > 5)))) }

/-- A concrete cached record used by witnesses. -/
def demoSolution : CachedSolution :=
  { pattern_id := "p1"
    solution_text := .jStr "add a null check before dereferencing"
    confidence_score := 85
    success_rate := 80
    applicable_repos := ["cosmic-fountain"]
    fix_templates := [.jStr "use optional chaining"]
    prevention_strategies := ["initialize objects with defaults"]
    cached_date := 0
    usage_count := 3
    last_accessed := 0 }

/-- The single discovered pattern of the round-trip scenario. -/
def roundTripPattern : DiscoveredPattern :=
  { pattern_id := some "p1", fix_template := .jArr ["do x"], confidence := some 90 }

/-! ## Usage tracker and cost model (`claude-interface.ts`) -/

/-- MONTHLY_BUDGET_USD. -/
def MONTHLY_BUDGET_USD : ℚ := 25

/-- DAILY_CALL_LIMIT (about 500 calls per month). -/
def DAILY_CALL_LIMIT : Nat := 17

/-- COST_PER_CALL_ESTIMATE ($0.05 average per call). -/
def COST_PER_CALL_ESTIMATE : ℚ := 5/100

/-- One entry of the `UsageTracker` log: the day bucket of its timestamp
(the `toDateString` key) and the recorded dollar cost. The `tokens_used`,
`model` and `batch_size` fields feed no claim and are omitted. -/
structure UsageRecord where
  day : Nat
  cost : ℚ
deriving DecidableEq

/-- The `todayUsage.length` call count of `checkDailyBudget` for day `d`. -/
def callsOn (log : List UsageRecord) (d : Nat) : Nat :=
  (log.filter (fun r => r.day == d)).length

/-- The dollar cost recorded on day `d` (the `reduce((sum, log) => sum +
log.cost, 0)` over the entries of that day). -/
def dailySpend (log : List UsageRecord) (d : Nat) : ℚ :=
  (log.filter (fun r => r.day == d)).foldl (fun sum r => sum + r.cost) 0

/-- The report of `UsageTracker.checkDailyBudget`; `remaining_budget` is a
remaining number of calls (`max(0, DAILY_CALL_LIMIT - callsMadeToday)`,
which is Nat subtraction). -/
structure TrackerBudget where
  can_proceed : Bool
  calls_made_today : Nat
  remaining_budget : Nat
deriving DecidableEq

/-- The `UsageTracker.checkDailyBudget` routine: proceed while strictly
fewer than DAILY_CALL_LIMIT calls were recorded today. -/
def UsageTracker.checkDailyBudget (log : List UsageRecord) (today : Nat) : TrackerBudget :=
  let callsMadeToday := callsOn log today
  { can_proceed := callsMadeToday < DAILY_CALL_LIMIT
    calls_made_today := callsMadeToday
    remaining_budget := DAILY_CALL_LIMIT - callsMadeToday }

/-- The scheduler priorities. -/
inductive Priority where
  | low
  | medium
  | high
  | critical
deriving DecidableEq

/-- The scheduler priority weights. -/
def priorityWeights : Priority → Nat
  | .critical => 100
  | .high => 75
  | .medium => 50
  | .low => 25

/-- The `canUseClaude` availability check: critical priority is allowed 5
extra emergency calls beyond DAILY_CALL_LIMIT; other priorities follow the
normal budget check. -/
def canUseClaude (log : List UsageRecord) (today : Nat) (priority : Priority) : Bool :=
  if priority = .critical then
    callsOn log today < DAILY_CALL_LIMIT + 5
  else
    (UsageTracker.checkDailyBudget log today).can_proceed

/-- The `estimateTokenUsage` proxy: one token per four characters of prompt
and response text, rounded up. -/
def estimateTokenUsage (promptLen respLen : Nat) : Nat :=
  (promptLen + 3) / 4 + (respLen + 3) / 4

/-- The `calculateCallCost` model: 70% of tokens are input at $0.25 per
million, 30% output at $1.25 per million. -/
def calculateCallCost (tokensUsed : Nat) : ℚ :=
  let inputTokens : ℚ := (tokensUsed : ℚ) * (7/10)
  let outputTokens : ℚ := (tokensUsed : ℚ) * (3/10)
  inputTokens / 1000000 * (1/4) + outputTokens / 1000000 * (5/4)

/-- The reachable usage logs: `recordUsage` is invoked only by
`analyzeBatchWithBudget`, after its same-day `checkDailyBudget` gate
allowed the call, and always appends a cost produced by
`calculateCallCost`. -/
inductive GatedTrace : List UsageRecord → Prop where
  | nil : GatedTrace []
  | snoc (log : List UsageRecord) (d tokens : Nat) :
      GatedTrace log →
      (UsageTracker.checkDailyBudget log d).can_proceed = true →
      GatedTrace (log ++ [⟨d, calculateCallCost tokens⟩])

/-! ## Strategic processing scheduler (`processing-scheduler.ts`) -/

/-- A `QueuedError` record; `queued_at` is an abstract instant. -/
structure QueuedError where
  id : String
  error_context : ErrorContext
  priority : Priority
  queued_at : Nat
  estimated_cost : ℚ
  retry_count : Nat
deriving DecidableEq

/-- Production errors: the environment flag or the message mentions
production. -/
def isProductionError (ctx : ErrorContext) : Bool :=
  (ctx.environment_info.lookup "environment" == some "production") ||
    strIncludes (jsToLower ctx.error_message) "production"

/-- Security errors: the message mentions one of the security keywords. -/
def isSecurityError (ctx : ErrorContext) : Bool :=
  ["permission denied", "unauthorized", "authentication", "security"].any
    (fun keyword => strIncludes (jsToLower ctx.error_message) keyword)

/-- Build errors. -/
def isBuildError (ctx : ErrorContext) : Bool :=
  strIncludes (jsToLower ctx.error_message) "build" ||
    strIncludes (jsToLower ctx.error_message) "compilation"

/-- API errors. -/
def isAPIError (ctx : ErrorContext) : Bool :=
  strIncludes (jsToLower ctx.error_message) "api" ||
    strIncludes (jsToLower ctx.error_message) "http" ||
    strIncludes (jsToLower ctx.error_message) "request"

/-- Development-context errors. -/
def isDevelopmentError (ctx : ErrorContext) : Bool :=
  ctx.environment_info.lookup "environment" == some "development"

/-- Test errors (the optional stack trace is falsy when absent). -/
def isTestError (ctx : ErrorContext) : Bool :=
  strIncludes (jsToLower ctx.error_message) "test" ||
    (match ctx.stack_trace with
     | some st => strIncludes (jsToLower st) "test"
     | none => false)

/-- The `determinePriority` heuristics. -/
def determinePriority (ctx : ErrorContext) : Priority :=
  if isProductionError ctx || isSecurityError ctx then .critical
  else if isBuildError ctx || isAPIError ctx then .high
  else if isDevelopmentError ctx || isTestError ctx then .medium
  else .low

/-- The `estimateProcessingCost` heuristics: $0.05 base, +$0.02 for stack
traces over 1000 characters, +$0.01 for rich environment metadata (more
than 5 keys). -/
def estimateProcessingCost (ctx : ErrorContext) : ℚ :=
  let baseCost : ℚ := 5/100
  let bigStack : Bool := match ctx.stack_trace with
    | some st => decide (st.length > 1000)
    | none => false
  let baseCost := if bigStack then baseCost + 2/100 else baseCost
  if ctx.environment_info.length > 5 then baseCost + 1/100 else baseCost

/-- The `calculateQueuePosition` count: queued items (the freshly inserted
item included, since `queueForClaudeAnalysis` sets it first) whose priority
weight is at least the weight of the new item. -/
def calculateQueuePosition (queue : List (String × QueuedError)) (e : QueuedError) : Nat :=
  ((jsValues queue).filter (fun queued =>
    priorityWeights e.priority ≤ priorityWeights queued.priority)).length

/-- The result of `queueForClaudeAnalysis`; the `estimated_time` display
string is represented by the rounded minute count it formats. -/
structure QueueResult where
  position : Nat
  estimated_minutes : ℤ
  cost_estimate : ℚ
deriving DecidableEq

/-- The `estimateProcessingTime` heuristic in minutes (30 per queue slot,
scaled by a priority multiplier, rounded); the string formatting of the
source is not modelled. -/
def estimateProcessingTime (position : Nat) (priority : Priority) : ℤ :=
  let baseTime : ℚ := (position : ℚ) * 30
  let multiplier : ℚ := match priority with
    | .critical => 1/10
    | .high => 1/2
    | .medium => 1
    | .low => 2
  round (baseTime * multiplier)

/-- The fresh `QueuedError` record built by `queueForClaudeAnalysis`. -/
def mkQueuedError (ctx : ErrorContext) (now : Nat) (errorId : String) : QueuedError :=
  { id := errorId
    error_context := ctx
    priority := determinePriority ctx
    queued_at := now
    estimated_cost := estimateProcessingCost ctx
    retry_count := 0 }

/-- The `queueForClaudeAnalysis` routine: build the queued record, insert it
into the queue, then compute the reported position (over the queue that
already contains it). The content-hash id generation is abstracted into the
`errorId` argument. -/
def queueForClaudeAnalysis (queue : List (String × QueuedError)) (ctx : ErrorContext)
    (now : Nat) (errorId : String) : QueueResult × List (String × QueuedError) :=
  let queuedError := mkQueuedError ctx now errorId
  let queue1 := jsSet queue errorId queuedError
  let position := calculateQueuePosition queue1 queuedError
  ({ position := position
     estimated_minutes := estimateProcessingTime position queuedError.priority
     cost_estimate := queuedError.estimated_cost }, queue1)

/-- The scheduler-side `checkDailyBudget` report. -/
structure SchedulerBudget where
  can_proceed : Bool
  remaining_budget : ℚ
  calls_made_today : Nat
deriving DecidableEq

/-- The scheduler `dailyBudgetLimit` ($25/month over 30 days, the hardcoded
0.83 literal). -/
def dailyBudgetLimit : ℚ := 83/100

/-- The scheduler-side `checkDailyBudget`: its spending and call inputs are
the placeholder constants of `calculateTodaySpending` (0.25) and
`getTodayCallCount` (5), so `can_proceed` computes to `true`. -/
def StrategicProcessingScheduler.checkDailyBudget : SchedulerBudget :=
  let todaySpending : ℚ := 25/100
  let todayCalls : Nat := 5
  let remainingBudget := max 0 (dailyBudgetLimit - todaySpending)
  { can_proceed := decide (remainingBudget > 5/100)
    remaining_budget := remainingBudget
    calls_made_today := todayCalls }

/-- The retry bump applied to each batch item in the failure handler. -/
def bumpRetry (e : QueuedError) : QueuedError :=
  { e with retry_count := e.retry_count + 1 }

/-- One item of the catch handler of `processBatchWithClaude`: bump the
retry count and re-insert unless the bumped count reached 3. -/
def requeueStep (q : List (String × QueuedError)) (e : QueuedError) :
    List (String × QueuedError) :=
  let bumped := bumpRetry e
  if bumped.retry_count < 3 then jsSet q bumped.id bumped else q

/-- The `processBatchWithClaude` routine restricted to its queue effect:
the success path runs logging only; when the dispatch raises, every batch
item is bumped and re-inserted unless its bumped `retry_count` reached 3,
in which case it is discarded (the catch handler emits no per-item
report). -/
def processBatchWithClaude (queue : List (String × QueuedError))
    (batch : List QueuedError) (gatewayFails : Bool) : List (String × QueuedError) :=
  if gatewayFails then batch.foldl requeueStep queue else queue

/-- Cross-repository relevance: the message mentions one of the shared
infrastructure keywords. -/
def hasCrossRepoRelevance (e : QueuedError) : Bool :=
  ["docker", "network", "database", "api", "auth"].any (fun indicator =>
    strIncludes (jsToLower e.error_context.error_message) indicator)

/-- The Wednesday `processCrossRepoAnalysis` flow: select up to 6 relevant
queued items, dispatch them, then delete them from the queue — the deletion
runs after `processBatchWithClaude` has already handled a failure, so it
also removes items the failure handler had requeued. -/
def processCrossRepoAnalysis (queue : List (String × QueuedError))
    (gatewayFails : Bool) : List (String × QueuedError) :=
  let crossRepoErrors := ((jsValues queue).filter hasCrossRepoRelevance).take 6
  if crossRepoErrors.length > 0 then
    let afterBatch := processBatchWithClaude queue crossRepoErrors gatewayFails
    crossRepoErrors.foldl (fun q e => jsDelete q e.id) afterBatch
  else queue

/-- A concrete novel error context used by witnesses: an API failure in a
development environment. -/
def demoCtx : ErrorContext :=
  { error_message := "HTTP request to the style service timed out"
    stack_trace := some "at fetchStyles (bridge.js:42)"
    repo_context := "style-vault-curation"
    environment_info := [("environment", "development")] }

/-- A queued cross-repository-relevant error at retry count 0. -/
def crossRepoItem : QueuedError :=
  { id := "e1"
    error_context :=
      { error_message := "docker network bridge not found"
        repo_context := "cosmic-fountain" }
    priority := .high
    queued_at := 0
    estimated_cost := 5/100
    retry_count := 0 }

/-- A queued item already at retry count 2, dropped by the next failure. -/
def exhaustedItem : QueuedError :=
  { crossRepoItem with id := "e2", retry_count := 2 }

/-! ## External analysis gateway (`claude-interface.ts`) -/

/-- The JSON content extracted from a gateway response text by
`parseStructuredResponse`: the regex finds no JSON block, `JSON.parse`
throws, or an object is obtained whose three list fields may each be
absent. The text-level extraction and `JSON.parse` are abstracted into
this shape. -/
inductive ClaudeContent where
  | noJson
  | malformed
  | ok (patterns : Option (List DiscoveredPattern))
      (novel_insights : Option (List Insight))
      (cross_repo_correlations : Option (List String))
deriving DecidableEq

/-- The object returned by `parseStructuredResponse`. -/
structure ParsedResponse where
  patterns : List DiscoveredPattern
  novel_insights : List Insight
  cross_repo_correlations : Option (List String)
  processing_notes : Option String
deriving DecidableEq

/-- The `parseStructuredResponse` routine: every extraction or parse
failure returns the empty result with a diagnostic note (the catch branch)
instead of raising — the embedding is a total function; on success the
`patterns` and `novel_insights` fields default to `[]` when missing, while
`cross_repo_correlations` is passed through and defaulted later by
`analyzeBatchWithBudget`. Any `processing_notes` of a parsed object feed
no claim and are rendered as `none`. -/
def parseStructuredResponse : ClaudeContent → ParsedResponse
  | .noJson =>
      { patterns := []
        novel_insights := []
        cross_repo_correlations := some []
        processing_notes := some "Failed to parse structured response" }
  | .malformed =>
      { patterns := []
        novel_insights := []
        cross_repo_correlations := some []
        processing_notes := some "Failed to parse structured response" }
  | .ok ps ins cross =>
      { patterns := ps.getD []
        novel_insights := ins.getD []
        cross_repo_correlations := cross
        processing_notes := none }

/-- A `ClaudeAnalysisResult` as assembled by `analyzeBatchWithBudget`. -/
structure ClaudeAnalysisResult where
  patterns : List DiscoveredPattern
  novel_insights : List Insight
  cross_repo_correlations : List String
  api_cost : ℚ
  tokens_used : Nat
deriving DecidableEq

/-- One gateway interaction: the parsed shape of the response, the prompt
and response text lengths (the prompt built by `createBatchAnalysisPrompt`
enters the model only through its length), and whether the network call
itself raises. -/
structure GatewayEnv where
  content : ClaudeContent
  promptLen : Nat
  respLen : Nat
  apiFails : Bool := false
deriving DecidableEq

/-- The outcome of `analyzeBatchWithBudget`: a thrown budget error (before
any network call), a thrown gateway error (after the call, before
recording), or a parsed result together with the usage log extended by
`recordUsage`. -/
inductive BatchCallResult where
  | budget_exceeded
  | api_failed
  | ok (result : ClaudeAnalysisResult) (log : List UsageRecord)
deriving DecidableEq

/-- The `analyzeBatchWithBudget` routine: throw when the tracker budget is
exhausted, invoke the service, record token usage and cost, parse the
response, and default a missing correlation list to `[]`. The batch-size
optimization (dedupe, cap at 12, complexity sort) only shapes the prompt
text, which enters through `promptLen`. -/
def analyzeBatchWithBudget (log : List UsageRecord) (today : Nat)
    (env : GatewayEnv) : BatchCallResult :=
  if (UsageTracker.checkDailyBudget log today).can_proceed then
    if env.apiFails then .api_failed
    else
      let tokensUsed := estimateTokenUsage env.promptLen env.respLen
      let callCost := calculateCallCost tokensUsed
      let log1 := log ++ [⟨today, callCost⟩]
      let parsed := parseStructuredResponse env.content
      .ok
        { patterns := parsed.patterns
          novel_insights := parsed.novel_insights
          cross_repo_correlations := parsed.cross_repo_correlations.getD []
          api_cost := callCost
          tokens_used := tokensUsed } log1
  else .budget_exceeded

/-- The empty parse result carrying the diagnostic note. -/
def emptyParsedWithNote : ParsedResponse :=
  { patterns := []
    novel_insights := []
    cross_repo_correlations := some []
    processing_notes := some "Failed to parse structured response" }

/-- A concrete gateway interaction whose parsed object misses all three
list fields. -/
def demoEnv : GatewayEnv :=
  { content := .ok none none none, promptLen := 400, respLen := 80 }

/-! ## MCP server tools (`index.ts`) -/

/-- JS truthiness of the object returned by the scheduler budget check
inside `analyzeErrorPatterns`: `canUseClaude` there is bound to the whole
`{can_proceed, remaining_budget, calls_made_today}` object, and an object
is always truthy, so `!canUseClaude` is `false` whatever the report says. -/
def objFalsy (_b : SchedulerBudget) : Bool := false

/-- The `analysis_depth` argument (`escalate_if_needed` is the spec name of
`claude_if_needed`). -/
inductive AnalysisDepth where
  | local_only
  | claude_if_needed
  | comprehensive
deriving DecidableEq

/-- The result of `analyzeBatchLocally`. -/
structure LocalAnalysisResult where
  patterns : List ErrorPattern
  confidence_scores : List Nat
  recommended_actions : List String

/-- First-occurrence deduplication (`[...new Set(arr)]`). -/
def dedupFirst (l : List String) : List String :=
  l.foldl (fun acc s => if acc.contains s then acc else acc ++ [s]) []

/-- The `analyzeBatchLocally` routine: match each batch error, keep
patterns matched with confidence above 70, and deduplicate the recommended
actions. -/
def analyzeBatchLocally (engine : List ErrorPattern) (batch : List ErrorContext) :
    LocalAnalysisResult :=
  let step := fun (acc : List ErrorPattern × List Nat × List String) (e : ErrorContext) =>
    let m := matchErrorPattern engine e
    if 70 < m.confidence then
      match engine.find? (fun p => p.id == m.pattern_id) with
      | some p => (acc.1 ++ [p], acc.2.1 ++ [m.confidence], acc.2.2 ++ m.suggested_actions)
      | none => acc
    else acc
  let res := batch.foldl step ([], [], [])
  { patterns := res.1
    confidence_scores := res.2.1
    recommended_actions := dedupFirst res.2.2 }

/-- The JSON response shapes of `analyzeErrorPatterns`, named after their
`analysis_type` tags (the catch branch carries `error` and `details`). -/
inductive AnalyzeOutcome where
  | local_only (analysis : LocalAnalysisResult)
  | local_fallback_budget_exceeded (analysis : LocalAnalysisResult)
  | claude_enhanced (patterns : List DiscoveredPattern) (novel_insights : List Insight)
      (cross_repo_correlations : List String) (api_cost : ℚ)
  | error_response (err : String) (details : String)

/-- Is the outcome the budget fallback? -/
def AnalyzeOutcome.isFallback : AnalyzeOutcome → Bool
  | .local_fallback_budget_exceeded _ => true
  | _ => false

/-- The gateway cost carried by the outcome (0 for the local shapes). -/
def AnalyzeOutcome.gatewayCost : AnalyzeOutcome → ℚ
  | .claude_enhanced _ _ _ c => c
  | _ => 0

/-- The `analyzeErrorPatterns` tool: pure local analysis for `local_only`;
otherwise the budget-fallback condition tests `!canUseClaude` on the
scheduler report object (see `objFalsy`) and the flow proceeds to
`analyzeBatchWithBudget`, whose thrown errors the outer catch converts to
an error response; a successful gateway result is written into the cache.
The fourth component reports whether the external service was invoked. -/
def analyzeErrorPatterns (engine : List ErrorPattern) (cache : CacheState)
    (log : List UsageRecord) (today : Nat) (batch : List ErrorContext)
    (depth : AnalysisDepth) (env : GatewayEnv) :
    AnalyzeOutcome × CacheState × List UsageRecord × Bool :=
  if depth = .local_only then
    (.local_only (analyzeBatchLocally engine batch), cache, log, false)
  else
    let canUse := StrategicProcessingScheduler.checkDailyBudget
    if objFalsy canUse = true ∧ depth = .claude_if_needed then
      (.local_fallback_budget_exceeded (analyzeBatchLocally engine batch), cache, log, false)
    else
      match analyzeBatchWithBudget log today env with
      | .budget_exceeded =>
          (.error_response "Failed to analyze error patterns" "Daily budget exceeded",
            cache, log, false)
      | .api_failed =>
          (.error_response "Failed to analyze error patterns" "Claude analysis failed",
            cache, log, true)
      | .ok res log1 =>
          (.claude_enhanced res.patterns res.novel_insights res.cross_repo_correlations
            res.api_cost,
           cacheAnalysisResults cache
             { patterns := res.patterns, novel_insights := res.novel_insights } today,
           log1, true)

/-- The response shapes of `captureErrorContext`. -/
inductive CaptureOutcome where
  | local_pattern_match (confidence : Nat) (pattern_type : String)
      (suggested_solution : Option CachedSolution) (api_cost : ℚ)
  | queued_for_claude (queue_position : Nat) (local_match_confidence : Nat)
      (cost_estimate : ℚ)

/-- The `captureErrorContext` tool: a local match above confidence 85 is
served from the cache at api cost 0; otherwise the error is queued for
strategic Claude analysis. -/
def captureErrorContext (engine : List ErrorPattern) (cache : CacheState)
    (queue : List (String × QueuedError)) (ctx : ErrorContext) (now : Nat)
    (errorId : String) : CaptureOutcome × CacheState × List (String × QueuedError) :=
  let localMatch := matchErrorPattern engine ctx
  if 85 < localMatch.confidence then
    let res := getCachedSolution cache localMatch.pattern_id now
    (.local_pattern_match localMatch.confidence localMatch.pattern_type res.1 0, res.2, queue)
  else
    let qr := queueForClaudeAnalysis queue ctx now errorId
    (.queued_for_claude qr.1.position localMatch.confidence qr.1.cost_estimate, cache, qr.2)

/-- A usage log with DAILY_CALL_LIMIT same-day recorded calls. -/
def exhaustedLog : List UsageRecord :=
  List.replicate DAILY_CALL_LIMIT ⟨0, 5/100⟩

/-! ## At-most-once payment (C1) -/

/-- The cache-mutating events of an execution: a successful gateway result
written back (`cacheAnalysisResults`), a lookup, an effectiveness-feedback
update, and the periodic cleanup. -/
inductive CacheOp where
  | gateway (res : AnalysisPayload) (now : Nat)
  | getOp (pid : String) (now : Nat)
  | feedback (pid : String) (wasSuccessful : Bool) (now : Nat)
  | cleanup (now : Nat)

/-- Apply one event to the cache state. -/
def applyOp (st : CacheState) : CacheOp → CacheState
  | .gateway res now => cacheAnalysisResults st res now
  | .getOp pid now => (getCachedSolution st pid now).2
  | .feedback pid b now => updateSolutionEffectiveness st pid b now
  | .cleanup now => cleanupCache st now

/-- Is the event a cleanup? -/
def CacheOp.isCleanup : CacheOp → Bool
  | .cleanup _ => true
  | _ => false

/-- Is the event a gateway write-back? -/
def CacheOp.isGateway : CacheOp → Bool
  | .gateway _ _ => true
  | _ => false

/-- Does the event introduce `pid` into the cache: a gateway write-back
that makes a previously absent pattern id present? -/
def introduces (st : CacheState) (op : CacheOp) (pid : String) : Bool :=
  op.isGateway && (jsGet st.solutionCache pid).isNone &&
    (jsGet (applyOp st op).solutionCache pid).isSome

/-- Number of events along a trace that introduce `pid`. -/
def introCount (st : CacheState) (pid : String) : List CacheOp → Nat
  | [] => 0
  | op :: ops => (if introduces st op pid then 1 else 0) + introCount (applyOp st op) pid ops

/-- A cache state already holding the docker port pattern id. -/
def dockerCachedState : CacheState :=
  { solutionCache :=
      [("docker_port_already_in_use",
        { demoSolution with pattern_id := "docker_port_already_in_use" })] }

/-! ## Theorems -/

theorem calculateConfidence_eq_hints (p : ErrorPattern) (ctx : ErrorContext)
    (h : p.sigTest (combinedText ctx) = true) :
    calculateConfidence p ctx (combinedText ctx) =
      min (70 + 20 + 10 * contextHints p ctx) 100 := by
  by_cases hr : ctx.repo_context ≠ "" <;>
  by_cases h1 : (strIncludes p.type "python" && strIncludes (jsToLower ctx.repo_context) "python") = true <;>
  by_cases h2 : (strIncludes p.type "javascript" && strIncludes (jsToLower ctx.repo_context) "node") = true <;>
  by_cases h3 : (strIncludes p.type "docker" && strIncludes (jsToLower ctx.repo_context) "docker") = true <;>
    simp [calculateConfidence, contextHints, h, hr, h1, h2, h3] <;> omega

theorem calculateConfidence_ge_90 (p : ErrorPattern) (ctx : ErrorContext)
    (h : p.sigTest (combinedText ctx) = true) :
    90 ≤ calculateConfidence p ctx (combinedText ctx) := by
  rw [calculateConfidence_eq_hints p ctx h]
  omega

theorem foldl_matchStep_char (ctx : ErrorContext) (ps : List ErrorPattern)
    (best : ErrorMatch) :
    (ps.foldl (matchStep ctx (combinedText ctx)) best = best ∧
      ∀ p ∈ ps, qualifies ctx p → confOf ctx p ≤ best.confidence) ∨
    (∃ p ∈ ps, qualifies ctx p ∧
      ps.foldl (matchStep ctx (combinedText ctx)) best = matchResultOf p ctx ∧
      best.confidence < confOf ctx p ∧
      ∀ q ∈ ps, qualifies ctx q → confOf ctx q ≤ confOf ctx p) := by
  induction ps generalizing best with
  | nil => exact Or.inl ⟨rfl, by simp⟩
  | cons p rest ih =>
    by_cases hsig : p.sigTest (combinedText ctx) = true
    · by_cases hupd : best.confidence < confOf ctx p ∧
          p.confidence_threshold ≤ confOf ctx p
      · have hstep : matchStep ctx (combinedText ctx) best p = matchResultOf p ctx := by
          unfold matchStep matchResultOf confOf at *
          rw [if_pos hsig, if_pos hupd]
        have hq : qualifies ctx p := ⟨hsig, hupd.2⟩
        have hconf : (matchResultOf p ctx).confidence = confOf ctx p := rfl
        rcases ih (matchResultOf p ctx) with ⟨heq, hbound⟩ | ⟨q, hqmem, hqq, heq, hlt, hbound⟩
        · refine Or.inr ⟨p, by simp, hq, ?_, hupd.1, ?_⟩
          · simpa [hstep] using heq
          · intro q hqmem hqq
            rcases List.mem_cons.mp hqmem with hqmem | hqmem
            · simp [hqmem]
            · simpa [hconf] using hbound q hqmem hqq
        · refine Or.inr ⟨q, by simp [hqmem], hqq, ?_, ?_, ?_⟩
          · simpa [hstep] using heq
          · calc best.confidence < confOf ctx p := hupd.1
              _ ≤ confOf ctx q := by simpa [hconf] using le_of_lt hlt
          · intro r hrmem hrq
            rcases List.mem_cons.mp hrmem with hrmem | hrmem
            · subst hrmem
              simpa [hconf] using le_of_lt hlt
            · exact hbound r hrmem hrq
      · have hstep : matchStep ctx (combinedText ctx) best p = best := by
          unfold matchStep confOf at *
          rw [if_pos hsig, if_neg hupd]
        have hple : qualifies ctx p → confOf ctx p ≤ best.confidence := by
          intro hq
          rcases not_and_or.mp hupd with h1 | h2
          · omega
          · exact absurd hq.2 h2
        rcases ih best with ⟨heq, hbound⟩ | ⟨q, hqmem, hqq, heq, hlt, hbound⟩
        · refine Or.inl ⟨by rw [List.foldl_cons, hstep, heq], ?_⟩
          intro r hrmem hrq
          rcases List.mem_cons.mp hrmem with hrmem | hrmem
          · subst hrmem; exact hple hrq
          · exact hbound r hrmem hrq
        · refine Or.inr ⟨q, by simp [hqmem], hqq, ?_, hlt, ?_⟩
          · rw [List.foldl_cons, hstep, heq]
          · intro r hrmem hrq
            rcases List.mem_cons.mp hrmem with hrmem | hrmem
            · subst hrmem; exact le_trans (hple hrq) (le_of_lt hlt)
            · exact hbound r hrmem hrq
    · have hstep : matchStep ctx (combinedText ctx) best p = best := by
        unfold matchStep
        rw [if_neg hsig]
      have hple : ¬ qualifies ctx p := fun hq => hsig hq.1
      rcases ih best with ⟨heq, hbound⟩ | ⟨q, hqmem, hqq, heq, hlt, hbound⟩
      · refine Or.inl ⟨by rw [List.foldl_cons, hstep, heq], ?_⟩
        intro r hrmem hrq
        rcases List.mem_cons.mp hrmem with hrmem | hrmem
        · subst hrmem; exact absurd hrq hple
        · exact hbound r hrmem hrq
      · refine Or.inr ⟨q, by simp [hqmem], hqq, ?_, hlt, ?_⟩
        · rw [List.foldl_cons, hstep, heq]
        · intro r hrmem hrq
          rcases List.mem_cons.mp hrmem with hrmem | hrmem
          · subst hrmem; exact absurd hrq hple
          · exact hbound r hrmem hrq

/-- C3. Classifier match contract: every pattern is tested against the
case-folded message-plus-stack text; a matching pattern scores base 70 plus a
fixed +20 rule bonus plus +10 per aligned context hint, capped at 100; the
returned match maximises the score among patterns meeting their own
`confidence_threshold`, and when none qualifies the sentinel unmatched result
(confidence 0, escalation directive) is returned. -/
theorem classifier_match_contract (ps : List ErrorPattern) (ctx : ErrorContext) :
    (∀ p ∈ ps, p.sigTest (combinedText ctx) = true →
      calculateConfidence p ctx (combinedText ctx) =
        min (70 + 20 + 10 * contextHints p ctx) 100) ∧
    (∀ p ∈ ps, qualifies ctx p →
      calculateConfidence p ctx (combinedText ctx) ≤ (matchErrorPattern ps ctx).confidence) ∧
    ((∃ p ∈ ps, qualifies ctx p) →
      ∃ p ∈ ps, qualifies ctx p ∧ matchErrorPattern ps ctx = matchResultOf p ctx) ∧
    ((∀ p ∈ ps, ¬ qualifies ctx p) → matchErrorPattern ps ctx = unmatchedResult) := by
  refine ⟨fun p _ h => calculateConfidence_eq_hints p ctx h, ?_, ?_, ?_⟩ <;>
    rcases foldl_matchStep_char ctx ps unmatchedResult with
      ⟨heq, hbound⟩ | ⟨q, hqmem, hqq, heq, hlt, hbound⟩
  · intro p hmem hq
    exfalso
    have h90 := calculateConfidence_ge_90 p ctx hq.1
    have hb := hbound p hmem hq
    unfold confOf at hb
    simp [unmatchedResult] at hb
    omega
  · intro p hmem hq
    show confOf ctx p ≤ (matchErrorPattern ps ctx).confidence
    unfold matchErrorPattern
    rw [heq]
    exact hbound p hmem hq
  · rintro ⟨p, hmem, hq⟩
    exfalso
    have h90 := calculateConfidence_ge_90 p ctx hq.1
    have hb := hbound p hmem hq
    unfold confOf at hb
    simp [unmatchedResult] at hb
    omega
  · rintro ⟨p, hmem, hq⟩
    exact ⟨q, hqmem, hqq, heq⟩
  · intro hnone
    unfold matchErrorPattern
    rw [heq]
  · intro hnone
    exact absurd hqq (hnone q hqmem)

/-- C3 witness: the docker port pattern on a matching context scores
`min (90 + 10) 100 = 100`, qualifies against its threshold 98 and is the
returned best match. -/
theorem classifier_match_contract_witness :
    calculateConfidence dockerPortPattern dockerCtx (combinedText dockerCtx) =
      min (70 + 20 + 10 * contextHints dockerPortPattern dockerCtx) 100 ∧
    calculateConfidence dockerPortPattern dockerCtx (combinedText dockerCtx) ≤
      (matchErrorPattern [dockerPortPattern] dockerCtx).confidence ∧
    (∃ p ∈ [dockerPortPattern], qualifies dockerCtx p ∧
      matchErrorPattern [dockerPortPattern] dockerCtx = matchResultOf p dockerCtx) := by
  have h := classifier_match_contract [dockerPortPattern] dockerCtx
  exact ⟨h.1 dockerPortPattern (by simp) (by decide),
    h.2.1 dockerPortPattern (by simp) (by decide),
    h.2.2.1 ⟨dockerPortPattern, by simp, by decide⟩⟩

theorem jsGet_map_replace {α : Type} (m : List (String × α)) (k q : String) (v : α)
    (hqk : q ≠ k) :
    jsGet (m.map (fun kv => if kv.1 == k then (k, v) else kv)) q = jsGet m q := by
  induction m with
  | nil => rfl
  | cons kv rest ih =>
    simp only [List.map_cons]
    by_cases hk : (kv.1 == k) = true
    · have hkv : kv.1 = k := by simpa using hk
      simp only [jsGet] at ih ⊢
      rw [if_pos hk, List.find?_cons_of_neg _ (by simp [Ne.symm hqk]),
        List.find?_cons_of_neg _ (by simp [hkv, Ne.symm hqk])]
      exact ih
    · simp only [jsGet] at ih ⊢
      rw [if_neg hk]
      by_cases hq : (kv.1 == q) = true
      · rw [@List.find?_cons_of_pos _ (fun kv => kv.1 == q) kv _ hq,
          @List.find?_cons_of_pos _ (fun kv => kv.1 == q) kv _ hq]
      · rw [@List.find?_cons_of_neg _ (fun kv => kv.1 == q) kv _ hq,
          @List.find?_cons_of_neg _ (fun kv => kv.1 == q) kv _ hq]
        exact ih

theorem jsGet_append_single {α : Type} (m : List (String × α)) (k q : String) (v : α)
    (hqk : q ≠ k) :
    jsGet (m ++ [(k, v)]) q = jsGet m q := by
  induction m with
  | nil =>
    simp only [List.nil_append, jsGet]
    rw [List.find?_cons_of_neg _ (by simp [Ne.symm hqk])]
  | cons kv rest ih =>
    simp only [List.cons_append, jsGet] at ih ⊢
    by_cases hq : (kv.1 == q) = true
    · rw [@List.find?_cons_of_pos _ (fun kv => kv.1 == q) kv _ hq,
        @List.find?_cons_of_pos _ (fun kv => kv.1 == q) kv _ hq]
    · rw [@List.find?_cons_of_neg _ (fun kv => kv.1 == q) kv _ hq,
        @List.find?_cons_of_neg _ (fun kv => kv.1 == q) kv _ hq]
      exact ih

theorem jsGet_jsSet_self {α : Type} (m : List (String × α)) (k : String) (v : α) :
    jsGet (jsSet m k v) k = some v := by
  unfold jsSet
  by_cases h : m.any (fun kv => kv.1 == k) = true
  · rw [if_pos h]
    induction m with
    | nil => simp at h
    | cons kv rest ih =>
      simp only [List.map_cons]
      by_cases hk : (kv.1 == k) = true
      · simp only [jsGet]
        rw [if_pos hk, List.find?_cons_of_pos _ (by simp)]
        rfl
      · have hrest : rest.any (fun kv => kv.1 == k) = true := by
          simpa [List.any_cons, hk] using h
        simp only [jsGet]
        rw [if_neg hk, @List.find?_cons_of_neg _ (fun kv => kv.1 == k) kv _ hk]
        simpa [jsGet] using ih hrest
  · rw [if_neg h]
    induction m with
    | nil =>
      simp only [List.nil_append, jsGet]
      rw [List.find?_cons_of_pos _ (by simp)]
      rfl
    | cons kv rest ih =>
      have hk : ¬ (kv.1 == k) = true := fun hc => h (by simp [List.any_cons, hc])
      have hrest : ¬ rest.any (fun kv => kv.1 == k) = true := fun hc =>
        h (by simp [List.any_cons, hc])
      simp only [List.cons_append, jsGet]
      rw [@List.find?_cons_of_neg _ (fun kv => kv.1 == k) kv _ hk]
      simpa [jsGet] using ih hrest

theorem jsGet_jsSet_ne {α : Type} (m : List (String × α)) (k q : String) (v : α)
    (hqk : q ≠ k) :
    jsGet (jsSet m k v) q = jsGet m q := by
  unfold jsSet
  by_cases h : m.any (fun kv => kv.1 == k) = true
  · rw [if_pos h]; exact jsGet_map_replace m k q v hqk
  · rw [if_neg h]; exact jsGet_append_single m k q v hqk

/-- C7. Idempotent cache hits: a hit returns and stores the record with only
`usage_count` bumped by one and `last_accessed` refreshed, leaves every other
key untouched, and a second hit with no intervening put yields the same
record with `usage_count` bumped twice — `solution_text`, `fix_templates`
and all remaining fields unchanged. -/
theorem idempotent_cache_hits (st : CacheState) (pid : String) (s : CachedSolution)
    (t₁ t₂ : Nat) (h : jsGet st.solutionCache pid = some s) :
    (getCachedSolution st pid t₁).1 =
      some { s with usage_count := s.usage_count + 1, last_accessed := t₁ } ∧
    jsGet (getCachedSolution st pid t₁).2.solutionCache pid =
      some { s with usage_count := s.usage_count + 1, last_accessed := t₁ } ∧
    (∀ q, q ≠ pid →
      jsGet (getCachedSolution st pid t₁).2.solutionCache q = jsGet st.solutionCache q) ∧
    jsGet (getCachedSolution (getCachedSolution st pid t₁).2 pid t₂).2.solutionCache pid =
      some { s with usage_count := s.usage_count + 2, last_accessed := t₂ } := by
  refine ⟨?_, ?_, ?_, ?_⟩
  · simp only [getCachedSolution, h]
  · simp only [getCachedSolution, h, jsGet_jsSet_self]
  · intro q hq
    simp only [getCachedSolution, h]
    exact jsGet_jsSet_ne _ _ _ _ hq
  · simp only [getCachedSolution, h, jsGet_jsSet_self]

/-- C7 witness: two hits on a concrete one-entry cache. -/
theorem idempotent_cache_hits_witness :
    (getCachedSolution
        { solutionCache := [("p1", demoSolution)] } "p1" 5).1 =
      some { demoSolution with usage_count := demoSolution.usage_count + 1
                               last_accessed := 5 } ∧
    jsGet (getCachedSolution (getCachedSolution
        { solutionCache := [("p1", demoSolution)] } "p1" 5).2 "p1" 9).2.solutionCache "p1" =
      some { demoSolution with usage_count := demoSolution.usage_count + 2
                               last_accessed := 9 } := by
  have h := idempotent_cache_hits { solutionCache := [("p1", demoSolution)] }
    "p1" demoSolution 5 9 (by rfl)
  exact ⟨h.1, h.2.2.2⟩

/-- C8. Cache round trip: caching the discovered pattern
`{pattern_id: p1, fix_template: [do x], confidence: 90}` and then getting
`p1` yields a record whose `solution_text` is the given fix template, whose
`confidence_score` is 90, and whose `usage_count` is 1 (inserted at 0,
bumped by the get). -/
theorem cache_round_trip (st : CacheState) (t₁ t₂ : Nat)
    (h : jsGet st.solutionCache "p1" = none) :
    ∃ s, (getCachedSolution
        (cacheAnalysisResults st { patterns := [roundTripPattern] } t₁) "p1" t₂).1 = some s ∧
      s.solution_text = .jArr ["do x"] ∧ s.confidence_score = 90 ∧ s.usage_count = 1 := by
  have hid : (solutionOfPattern roundTripPattern t₁).pattern_id = "p1" := rfl
  have hget : jsGet (cacheAnalysisResults st { patterns := [roundTripPattern] } t₁).solutionCache
      "p1" = some (solutionOfPattern roundTripPattern t₁) := by
    simp only [cacheAnalysisResults, List.foldl_cons, List.foldl_nil, cacheSolution, hid]
    exact jsGet_jsSet_self _ _ _
  refine ⟨{ solutionOfPattern roundTripPattern t₁ with usage_count := 1, last_accessed := t₂ },
    ?_, rfl, by norm_num [solutionOfPattern, roundTripPattern, jsOrNum], rfl⟩
  simp only [getCachedSolution, hget]
  rfl

/-- C8 witness: the round trip on the empty cache. -/
theorem cache_round_trip_witness :
    ∃ s, (getCachedSolution
        (cacheAnalysisResults {} { patterns := [roundTripPattern] } 1) "p1" 2).1 = some s ∧
      s.solution_text = .jArr ["do x"] ∧ s.confidence_score = 90 ∧ s.usage_count = 1 :=
  cache_round_trip {} 1 2 (by rfl)

theorem updateSolutionEffectiveness_get (st : CacheState) (pid : String)
    (s : CachedSolution) (b : Bool) (t : Nat)
    (h : jsGet st.solutionCache pid = some s) :
    jsGet (updateSolutionEffectiveness st pid b t).solutionCache pid =
      some (applyEffectivenessUpdate s b t) := by
  simp only [updateSolutionEffectiveness, h, jsGet_jsSet_self]

/-- C4. Effectiveness feedback: `updateSolutionEffectiveness` performs the
0.1-weighted moving-average update of `success_rate` and nudges
`confidence_score` by +2 on success (capped at 100) or −5 on failure
(floored at 50); starting from `success_rate = 80`, three consecutive
success updates increase `confidence_score` monotonically (by the capped +2
step each time, never past 100) and move `success_rate` strictly upward
toward 100 without reaching it. -/
theorem effectiveness_feedback (st : CacheState) (pid : String) (s : CachedSolution)
    (t₁ t₂ t₃ : Nat) (h : jsGet st.solutionCache pid = some s)
    (hconf : s.confidence_score ≤ 100) (hsr : s.success_rate = 80) :
    (∀ (sol : CachedSolution) (b : Bool) (t : Nat),
      (applyEffectivenessUpdate sol b t).success_rate =
        sol.success_rate * (1 - 1/10) + (if b then (100:ℚ) else 0) * (1/10) ∧
      (applyEffectivenessUpdate sol b t).confidence_score =
        (if b then min 100 (sol.confidence_score + 2) else max 50 (sol.confidence_score - 5))) ∧
    (∃ s₁ s₂ s₃,
      jsGet (updateSolutionEffectiveness st pid true t₁).solutionCache pid = some s₁ ∧
      jsGet (updateSolutionEffectiveness (updateSolutionEffectiveness st pid true t₁)
        pid true t₂).solutionCache pid = some s₂ ∧
      jsGet (updateSolutionEffectiveness (updateSolutionEffectiveness
        (updateSolutionEffectiveness st pid true t₁) pid true t₂)
        pid true t₃).solutionCache pid = some s₃ ∧
      s₁.confidence_score = min 100 (s.confidence_score + 2) ∧
      s₂.confidence_score = min 100 (s₁.confidence_score + 2) ∧
      s₃.confidence_score = min 100 (s₂.confidence_score + 2) ∧
      s.confidence_score ≤ s₁.confidence_score ∧
      s₁.confidence_score ≤ s₂.confidence_score ∧
      s₂.confidence_score ≤ s₃.confidence_score ∧ s₃.confidence_score ≤ 100 ∧
      s₁.success_rate = 82 ∧ s₂.success_rate = 419/5 ∧ s₃.success_rate = 4271/50 ∧
      s.success_rate < s₁.success_rate ∧ s₁.success_rate < s₂.success_rate ∧
      s₂.success_rate < s₃.success_rate ∧ s₃.success_rate < 100) := by
  constructor
  · intro sol b t
    cases b <;> simp [applyEffectivenessUpdate]
  · have h₁ := updateSolutionEffectiveness_get st pid s true t₁ h
    have h₂ := updateSolutionEffectiveness_get _ pid _ true t₂ h₁
    have h₃ := updateSolutionEffectiveness_get _ pid _ true t₃ h₂
    have hc₁ : (applyEffectivenessUpdate s true t₁).confidence_score =
        min 100 (s.confidence_score + 2) := by simp [applyEffectivenessUpdate]
    have hc₂ : (applyEffectivenessUpdate (applyEffectivenessUpdate s true t₁)
        true t₂).confidence_score =
        min 100 ((applyEffectivenessUpdate s true t₁).confidence_score + 2) := by
      simp [applyEffectivenessUpdate]
    have hc₃ : (applyEffectivenessUpdate (applyEffectivenessUpdate
        (applyEffectivenessUpdate s true t₁) true t₂) true t₃).confidence_score =
        min 100 ((applyEffectivenessUpdate (applyEffectivenessUpdate s true t₁)
          true t₂).confidence_score + 2) := by
      simp [applyEffectivenessUpdate]
    have hs₁ : (applyEffectivenessUpdate s true t₁).success_rate = 82 := by
      simp [applyEffectivenessUpdate, hsr]
      norm_num
    have hs₂ : (applyEffectivenessUpdate (applyEffectivenessUpdate s true t₁)
        true t₂).success_rate = 419/5 := by
      simp [applyEffectivenessUpdate, hsr]
      norm_num
    have hs₃ : (applyEffectivenessUpdate (applyEffectivenessUpdate
        (applyEffectivenessUpdate s true t₁) true t₂) true t₃).success_rate = 4271/50 := by
      simp [applyEffectivenessUpdate, hsr]
      norm_num
    refine ⟨_, _, _, h₁, h₂, h₃, hc₁, hc₂, hc₃, ?_, ?_, ?_, ?_, hs₁, hs₂, hs₃,
      ?_, ?_, ?_, ?_⟩
    · rw [hc₁]
      exact le_min_iff.mpr ⟨hconf, by linarith⟩
    · rw [hc₂]
      refine le_min_iff.mpr ⟨?_, by linarith⟩
      rw [hc₁]
      exact min_le_left _ _
    · rw [hc₃]
      refine le_min_iff.mpr ⟨?_, by linarith⟩
      rw [hc₂]
      exact min_le_left _ _
    · rw [hc₃]
      exact min_le_left _ _
    · rw [hsr, hs₁]; norm_num
    · rw [hs₁, hs₂]; norm_num
    · rw [hs₂, hs₃]; norm_num
    · rw [hs₃]; norm_num

/-- C4 witness: three success updates on a concrete cache entry with
`success_rate = 80` and `confidence_score = 85`. -/
theorem effectiveness_feedback_witness :
    ∃ s₁ s₂ s₃,
      jsGet (updateSolutionEffectiveness
        { solutionCache := [("p1", demoSolution)] } "p1" true 1).solutionCache "p1" = some s₁ ∧
      jsGet (updateSolutionEffectiveness (updateSolutionEffectiveness
        { solutionCache := [("p1", demoSolution)] } "p1" true 1)
        "p1" true 2).solutionCache "p1" = some s₂ ∧
      jsGet (updateSolutionEffectiveness (updateSolutionEffectiveness
        (updateSolutionEffectiveness { solutionCache := [("p1", demoSolution)] } "p1" true 1)
        "p1" true 2) "p1" true 3).solutionCache "p1" = some s₃ ∧
      s₁.confidence_score = min 100 (demoSolution.confidence_score + 2) ∧
      s₂.confidence_score = min 100 (s₁.confidence_score + 2) ∧
      s₃.confidence_score = min 100 (s₂.confidence_score + 2) ∧
      demoSolution.confidence_score ≤ s₁.confidence_score ∧
      s₁.confidence_score ≤ s₂.confidence_score ∧
      s₂.confidence_score ≤ s₃.confidence_score ∧ s₃.confidence_score ≤ 100 ∧
      s₁.success_rate = 82 ∧ s₂.success_rate = 419/5 ∧ s₃.success_rate = 4271/50 ∧
      demoSolution.success_rate < s₁.success_rate ∧ s₁.success_rate < s₂.success_rate ∧
      s₂.success_rate < s₃.success_rate ∧ s₃.success_rate < 100 :=
  (effectiveness_feedback { solutionCache := [("p1", demoSolution)] } "p1" demoSolution
    1 2 3 (by rfl) (by norm_num [demoSolution]) (by norm_num [demoSolution])).2

theorem callsOn_append_single (log : List UsageRecord) (r : UsageRecord) (d : Nat) :
    callsOn (log ++ [r]) d = callsOn log d + (if r.day = d then 1 else 0) := by
  unfold callsOn
  rw [List.filter_append, List.length_append]
  by_cases h : r.day = d <;> simp [h]

theorem dailySpend_append_single (log : List UsageRecord) (r : UsageRecord) (d : Nat) :
    dailySpend (log ++ [r]) d = dailySpend log d + (if r.day = d then r.cost else 0) := by
  unfold dailySpend
  rw [List.filter_append, List.foldl_append]
  by_cases h : r.day = d <;> simp [h]

theorem calculateCallCost_nonneg (tokens : Nat) : 0 ≤ calculateCallCost tokens := by
  unfold calculateCallCost
  positivity

/-- C2 (amended). In every reachable usage log the number of calls recorded
on any day never exceeds DAILY_CALL_LIMIT (so a fortiori the limit plus the
5-call emergency allowance); the daily spend is non-decreasing under each
recorded call and a day with no recorded calls has spend 0 (the reset at the
day boundary). -/
theorem budget_monotonicity_amended :
    (∀ log, GatedTrace log → ∀ d, callsOn log d ≤ DAILY_CALL_LIMIT) ∧
    (∀ log, GatedTrace log → ∀ d, callsOn log d ≤ DAILY_CALL_LIMIT + 5) ∧
    (∀ (log : List UsageRecord) (d d₀ tokens : Nat),
      dailySpend log d ≤ dailySpend (log ++ [⟨d₀, calculateCallCost tokens⟩]) d) ∧
    (∀ (log : List UsageRecord) (d : Nat), callsOn log d = 0 → dailySpend log d = 0) := by
  have hcount : ∀ log, GatedTrace log → ∀ d, callsOn log d ≤ DAILY_CALL_LIMIT := by
    intro log h
    induction h with
    | nil => intro d; simp [callsOn, DAILY_CALL_LIMIT]
    | snoc log d₀ tokens _ hgate ih =>
      intro d
      rw [callsOn_append_single]
      by_cases hd : d₀ = d
      · subst hd
        have hlt : callsOn log d₀ < DAILY_CALL_LIMIT := by
          simpa [UsageTracker.checkDailyBudget, decide_eq_true_eq] using hgate
        simp only [eq_self_iff_true, if_true]
        omega
      · simp only [if_neg hd]
        have := ih d
        omega
  refine ⟨hcount, fun log h d => le_trans (hcount log h d) (by omega), ?_, ?_⟩
  · intro log d d₀ tokens
    rw [dailySpend_append_single]
    by_cases hd : d₀ = d
    · simp only [if_pos hd]
      have := calculateCallCost_nonneg tokens
      linarith
    · simp only [if_neg hd]
      linarith
  · intro log d h
    have hempty : log.filter (fun r => r.day == d) = [] :=
      List.length_eq_zero.mp h
    unfold dailySpend
    rw [hempty]
    rfl

/-- C2 witness for the amended invariant: a two-record reachable log. -/
theorem budget_monotonicity_amended_witness :
    callsOn [⟨0, calculateCallCost 4000⟩, ⟨0, calculateCallCost 2000⟩] 0
        ≤ DAILY_CALL_LIMIT ∧
    dailySpend [⟨0, calculateCallCost 4000⟩] 0 ≤
      dailySpend ([⟨0, calculateCallCost 4000⟩] ++ [⟨0, calculateCallCost 2000⟩]) 0 ∧
    dailySpend [⟨0, calculateCallCost 4000⟩, ⟨0, calculateCallCost 2000⟩] 1 = 0 := by
  have htr : GatedTrace [⟨0, calculateCallCost 4000⟩, ⟨0, calculateCallCost 2000⟩] := by
    have h0 : GatedTrace [] := GatedTrace.nil
    have h1 := GatedTrace.snoc [] 0 4000 h0 (by decide)
    have h2 := GatedTrace.snoc [⟨0, calculateCallCost 4000⟩] 0 2000 h1 (by decide)
    simpa using h2
  refine ⟨budget_monotonicity_amended.1 _ htr 0, ?_, ?_⟩
  · exact budget_monotonicity_amended.2.2.1 [⟨0, calculateCallCost 4000⟩] 0 0 2000
  · exact budget_monotonicity_amended.2.2.2 _ 1 (by decide)

/-- C2 counterexample: the gate bounds the call count, never the dollar
amount, so a single reachable recorded call (a 800-million-character
prompt at the character-to-token proxy) leaves a daily spend far above the
daily ceiling (25/30 dollars) plus any emergency allowance (5 calls at the
$0.05 estimate) — indeed above the whole monthly budget. -/
theorem budget_spend_exceeds_ceiling :
    GatedTrace [⟨0, calculateCallCost (estimateTokenUsage 800000000 16000)⟩] ∧
    dailySpend [⟨0, calculateCallCost (estimateTokenUsage 800000000 16000)⟩] 0 >
      MONTHLY_BUDGET_USD / 30 + 5 * COST_PER_CALL_ESTIMATE ∧
    dailySpend [⟨0, calculateCallCost (estimateTokenUsage 800000000 16000)⟩] 0 >
      MONTHLY_BUDGET_USD := by
  refine ⟨?_, ?_, ?_⟩
  · have h1 := GatedTrace.snoc [] 0 (estimateTokenUsage 800000000 16000)
      GatedTrace.nil (by decide)
    simpa using h1
  · norm_num [dailySpend, calculateCallCost, estimateTokenUsage,
      MONTHLY_BUDGET_USD, COST_PER_CALL_ESTIMATE]
  · norm_num [dailySpend, calculateCallCost, estimateTokenUsage, MONTHLY_BUDGET_USD]

theorem jsSet_of_absent {α : Type} (m : List (String × α)) (k : String) (v : α)
    (h : jsGet m k = none) : jsSet m k v = m ++ [(k, v)] := by
  have hfind : m.find? (fun kv => kv.1 == k) = none := by
    unfold jsGet at h
    exact Option.map_eq_none.mp h
  have hany : ¬ m.any (fun kv => kv.1 == k) = true := by
    intro hc
    rcases List.any_eq_true.mp hc with ⟨kv, hmem, hkv⟩
    exact absurd (List.find?_eq_none.mp hfind kv hmem) (by simp [hkv])
  unfold jsSet
  rw [if_neg hany]

/-- C10. Enqueue counts the new item in its own queue position:
`queueForClaudeAnalysis` inserts the queued record before
`calculateQueuePosition` runs, so the reported position is the number of
previously queued items whose priority weight reaches the weight of the new item,
plus one (the item itself) — in particular always at least 1, and exactly 1
on an empty queue. -/
theorem enqueue_position_counts_self (queue : List (String × QueuedError))
    (ctx : ErrorContext) (now : Nat) (errorId : String)
    (hfresh : jsGet queue errorId = none) :
    (queueForClaudeAnalysis queue ctx now errorId).1.position =
      ((jsValues queue).filter (fun queued =>
        priorityWeights (determinePriority ctx) ≤ priorityWeights queued.priority)).length
        + 1 ∧
    1 ≤ (queueForClaudeAnalysis queue ctx now errorId).1.position := by
  have hpos : (queueForClaudeAnalysis queue ctx now errorId).1.position =
      calculateQueuePosition (jsSet queue errorId (mkQueuedError ctx now errorId))
        (mkQueuedError ctx now errorId) := rfl
  have hmain : (queueForClaudeAnalysis queue ctx now errorId).1.position =
      ((jsValues queue).filter (fun queued =>
        priorityWeights (determinePriority ctx) ≤ priorityWeights queued.priority)).length
        + 1 := by
    rw [hpos, jsSet_of_absent queue errorId _ hfresh]
    unfold calculateQueuePosition jsValues
    rw [List.map_append, List.filter_append, List.length_append]
    simp [mkQueuedError]
  exact ⟨hmain, by omega⟩

/-- C10 witness: enqueueing into the empty queue reports position 1. -/
theorem enqueue_position_counts_self_witness :
    (queueForClaudeAnalysis [] demoCtx 7 "err_1").1.position = 0 + 1 ∧
    1 ≤ (queueForClaudeAnalysis [] demoCtx 7 "err_1").1.position :=
  enqueue_position_counts_self [] demoCtx 7 "err_1" (by rfl)

theorem foldl_requeueStep_frame (batch : List QueuedError)
    (queue : List (String × QueuedError)) (k : String)
    (hk : ∀ e ∈ batch, e.id ≠ k) :
    jsGet (batch.foldl requeueStep queue) k = jsGet queue k := by
  induction batch generalizing queue with
  | nil => rfl
  | cons b rest ih =>
    rw [List.foldl_cons, ih _ (fun e he => hk e (List.mem_cons_of_mem _ he))]
    unfold requeueStep
    by_cases hb : (bumpRetry b).retry_count < 3
    · rw [if_pos hb]
      exact jsGet_jsSet_ne _ _ _ _ (by simpa [bumpRetry] using (hk b (by simp)).symm)
    · rw [if_neg hb]

theorem foldl_requeueStep_mem (batch : List QueuedError)
    (queue : List (String × QueuedError)) (e : QueuedError) (he : e ∈ batch)
    (hnodup : (batch.map (fun x => x.id)).Nodup)
    (habsent : ∀ x ∈ batch, jsGet queue x.id = none) :
    jsGet (batch.foldl requeueStep queue) e.id =
      if e.retry_count + 1 < 3 then some (bumpRetry e) else none := by
  induction batch generalizing queue with
  | nil => cases he
  | cons b rest ih =>
    rw [List.map_cons, List.nodup_cons] at hnodup
    rw [List.foldl_cons]
    rcases List.mem_cons.mp he with rfl | hrest
    · have hids : ∀ x ∈ rest, x.id ≠ e.id := by
        intro x hx hc
        exact hnodup.1 (hc ▸ List.mem_map_of_mem (fun y => y.id) hx)
      rw [foldl_requeueStep_frame rest _ e.id hids]
      unfold requeueStep
      by_cases hb : (bumpRetry e).retry_count < 3
      · rw [if_pos hb]
        have hid : (bumpRetry e).id = e.id := rfl
        rw [← hid, jsGet_jsSet_self queue (bumpRetry e).id (bumpRetry e),
          if_pos (by simpa [bumpRetry] using hb)]
      · rw [if_neg hb, if_neg (by simpa [bumpRetry] using hb)]
        exact habsent e (by simp)
    · refine ih _ hrest hnodup.2 ?_
      intro x hx
      have hxb : x.id ≠ b.id := by
        intro hc
        exact hnodup.1 (hc ▸ List.mem_map_of_mem (fun y => y.id) hx)
      unfold requeueStep
      by_cases hb : (bumpRetry b).retry_count < 3
      · rw [if_pos hb, jsGet_jsSet_ne _ _ _ _ (by simpa [bumpRetry] using hxb)]
        exact habsent x (List.mem_cons_of_mem _ hx)
      · rw [if_neg hb]
        exact habsent x (List.mem_cons_of_mem _ hx)

/-- C6 (amended). Failure handling inside `processBatchWithClaude`: when the
gateway dispatch raises, every batch item whose bumped retry count is still
below 3 is requeued with `retry_count + 1`, an item reaching 3 is dropped
silently (the handler emits no per-item unresolved report and never touches
it again), and keys outside the batch are left untouched. The drained
batches of the Wednesday/Friday flows, however, are deleted from the queue
after this handler runs, so their failed items can be lost (see the
counterexample). -/
theorem retry_requeue_discipline (queue : List (String × QueuedError))
    (batch : List QueuedError)
    (hnodup : (batch.map (fun x => x.id)).Nodup)
    (habsent : ∀ x ∈ batch, jsGet queue x.id = none) :
    (∀ e ∈ batch, jsGet (processBatchWithClaude queue batch true) e.id =
      if e.retry_count + 1 < 3 then some (bumpRetry e) else none) ∧
    (∀ k, (∀ e ∈ batch, e.id ≠ k) →
      jsGet (processBatchWithClaude queue batch true) k = jsGet queue k) := by
  constructor
  · intro e he
    exact foldl_requeueStep_mem batch queue e he hnodup habsent
  · intro k hk
    exact foldl_requeueStep_frame batch queue k hk

/-- C6 witness: on a concrete failed two-item batch, the item at retry
count 0 is requeued with count 1 and the item at count 2 is dropped. -/
theorem retry_requeue_discipline_witness :
    jsGet (processBatchWithClaude [] [crossRepoItem, exhaustedItem] true) "e1" =
      some (bumpRetry crossRepoItem) ∧
    jsGet (processBatchWithClaude [] [crossRepoItem, exhaustedItem] true) "e2" = none := by
  have h := retry_requeue_discipline [] [crossRepoItem, exhaustedItem]
    (by decide) (by intro x hx; rfl)
  refine ⟨?_, ?_⟩
  · have h1 := h.1 crossRepoItem (by simp)
    simpa [crossRepoItem] using h1
  · have h2 := h.1 exhaustedItem (by simp)
    simpa [exhaustedItem, crossRepoItem] using h2

/-- C6 counterexample: in the Wednesday cross-repo flow a failed dispatch
first requeues the item with retry count 1 (below the ceiling of 3), but the
flow then deletes the batch from the queue, so the item ends up neither
queued nor dropped-after-max-retries — it is silently lost. -/
theorem cross_repo_failed_item_lost :
    jsGet (processBatchWithClaude [("e1", crossRepoItem)] [crossRepoItem] true) "e1" =
      some (bumpRetry crossRepoItem) ∧
    (bumpRetry crossRepoItem).retry_count < 3 ∧
    jsGet (processCrossRepoAnalysis [("e1", crossRepoItem)] true) "e1" = none := by
  refine ⟨by rfl, by norm_num [bumpRetry, crossRepoItem], by decide⟩

/-- C9. Gateway response parsing never raises: both failure shapes yield
the empty result with the diagnostic note (the embedding is total, so no
exception escapes); a successfully parsed object has its missing
`patterns` and `novel_insights` lists defaulted to `[]`, and the assembled
analysis result also defaults a missing correlation list to `[]`. -/
theorem gateway_parse_total :
    (∀ c : ClaudeContent, (c = .noJson ∨ c = .malformed) →
      parseStructuredResponse c = emptyParsedWithNote) ∧
    (∀ (ps : Option (List DiscoveredPattern)) (ins : Option (List Insight))
        (cross : Option (List String)),
      parseStructuredResponse (.ok ps ins cross) =
        { patterns := ps.getD []
          novel_insights := ins.getD []
          cross_repo_correlations := cross
          processing_notes := none }) ∧
    (∀ (log : List UsageRecord) (today : Nat) (env : GatewayEnv)
        (res : ClaudeAnalysisResult) (log1 : List UsageRecord),
      analyzeBatchWithBudget log today env = .ok res log1 →
        res.patterns = (parseStructuredResponse env.content).patterns ∧
        res.novel_insights = (parseStructuredResponse env.content).novel_insights ∧
        res.cross_repo_correlations =
          (parseStructuredResponse env.content).cross_repo_correlations.getD []) := by
  refine ⟨?_, ?_, ?_⟩
  · rintro c (rfl | rfl) <;> rfl
  · intro ps ins cross
    rfl
  · intro log today env res log1 h
    unfold analyzeBatchWithBudget at h
    by_cases hgate : (UsageTracker.checkDailyBudget log today).can_proceed = true
    · rw [if_pos hgate] at h
      by_cases hfail : env.apiFails = true
      · rw [if_pos hfail] at h
        cases h
      · rw [if_neg hfail] at h
        injection h with h1 h2
        subst h1
        exact ⟨rfl, rfl, rfl⟩
    · rw [if_neg hgate] at h
      cases h

/-- C9 witness: the failure shape and an all-missing parsed object on a
concrete dispatch from the empty log. -/
theorem gateway_parse_total_witness :
    parseStructuredResponse .noJson = emptyParsedWithNote ∧
    parseStructuredResponse (.ok none none none) =
      { patterns := []
        novel_insights := []
        cross_repo_correlations := none
        processing_notes := none } ∧
    ∃ (res : ClaudeAnalysisResult) (log1 : List UsageRecord),
      analyzeBatchWithBudget [] 0 demoEnv = .ok res log1 ∧
      res.patterns = [] ∧ res.novel_insights = [] ∧ res.cross_repo_correlations = [] := by
  have h := gateway_parse_total
  refine ⟨h.1 .noJson (Or.inl rfl), h.2.1 none none none, ?_⟩
  have hok : analyzeBatchWithBudget [] 0 demoEnv = .ok
      { patterns := []
        novel_insights := []
        cross_repo_correlations := []
        api_cost := calculateCallCost (estimateTokenUsage 400 80)
        tokens_used := estimateTokenUsage 400 80 }
      [⟨0, calculateCallCost (estimateTokenUsage 400 80)⟩] := rfl
  have h3 := h.2.2 [] 0 demoEnv _ _ hok
  exact ⟨_, _, hok, h3.1, h3.2.1, h3.2.2⟩

/-- C5. The budget-exhaustion fallback is dead code: `!canUseClaude`
negates the always-truthy scheduler report object, so no input ever
produces the `local_fallback_budget_exceeded` outcome; at the failing
input — a tracker log with DAILY_CALL_LIMIT same-day calls and depth
`claude_if_needed` — the call instead surfaces the thrown budget error as
an error response (the gateway is not invoked, but no local fallback
analysis is returned and the promised outcome shape never appears). -/
theorem budget_fallback_dead_code :
    (∀ (engine : List ErrorPattern) (cache : CacheState) (log : List UsageRecord)
        (today : Nat) (batch : List ErrorContext) (depth : AnalysisDepth)
        (env : GatewayEnv),
      (analyzeErrorPatterns engine cache log today batch depth env).1.isFallback = false) ∧
    analyzeErrorPatterns [] {} exhaustedLog 0 [demoCtx] .claude_if_needed demoEnv =
      (.error_response "Failed to analyze error patterns" "Daily budget exceeded",
        {}, exhaustedLog, false) := by
  constructor
  · intro engine cache log today batch depth env
    unfold analyzeErrorPatterns
    by_cases hd : depth = AnalysisDepth.local_only
    · rw [if_pos hd]
      rfl
    · rw [if_neg hd, if_neg (by simp [objFalsy])]
      cases analyzeBatchWithBudget log today env <;> rfl
  · have hgate : (UsageTracker.checkDailyBudget exhaustedLog 0).can_proceed = false := by
      decide
    unfold analyzeErrorPatterns
    rw [if_neg (by decide), if_neg (by simp [objFalsy])]
    unfold analyzeBatchWithBudget
    rw [hgate]
    rfl

theorem isSome_jsGet_jsSet {α : Type} (m : List (String × α)) (k q : String) (v : α)
    (h : (jsGet m q).isSome = true) : (jsGet (jsSet m k v) q).isSome = true := by
  by_cases hq : q = k
  · subst hq
    rw [jsGet_jsSet_self]
    rfl
  · rw [jsGet_jsSet_ne _ _ _ _ hq]
    exact h

theorem isSome_foldl_cacheSolution {β : Type} (l : List β)
    (f : β → CachedSolution) (m : List (String × CachedSolution)) (q : String)
    (h : (jsGet m q).isSome = true) :
    (jsGet (l.foldl (fun m b => cacheSolution m (f b)) m) q).isSome = true := by
  induction l generalizing m with
  | nil => exact h
  | cons b rest ih =>
    rw [List.foldl_cons]
    exact ih _ (isSome_jsGet_jsSet _ _ _ _ h)

theorem mem_mono_applyOp (st : CacheState) (op : CacheOp) (pid : String)
    (hop : op.isCleanup = false)
    (h : (jsGet st.solutionCache pid).isSome = true) :
    (jsGet (applyOp st op).solutionCache pid).isSome = true := by
  cases op with
  | gateway res now =>
      have hred : applyOp st (CacheOp.gateway res now) = cacheAnalysisResults st res now := rfl
      rw [hred]
      exact isSome_foldl_cacheSolution res.novel_insights _ _ pid
        (isSome_foldl_cacheSolution res.patterns _ _ pid h)
  | getOp q now =>
      have hred : applyOp st (CacheOp.getOp q now) = (getCachedSolution st q now).2 := rfl
      rw [hred]
      unfold getCachedSolution
      cases hq : jsGet st.solutionCache q with
      | none => simp only [hq]; exact h
      | some cached =>
          simp only [hq]
          by_cases hpq : pid = q
          · subst hpq
            simp [jsGet_jsSet_self]
          · simpa [jsGet_jsSet_ne _ _ _ _ hpq] using h
  | feedback q b now =>
      have hred : applyOp st (CacheOp.feedback q b now) =
          updateSolutionEffectiveness st q b now := rfl
      rw [hred]
      unfold updateSolutionEffectiveness
      cases hq : jsGet st.solutionCache q with
      | none => simp only [hq]; exact h
      | some sol =>
          simp only [hq]
          by_cases hpq : pid = q
          · subst hpq
            simp [jsGet_jsSet_self]
          · simpa [jsGet_jsSet_ne _ _ _ _ hpq] using h
  | cleanup now => cases hop

theorem introCount_of_present (st : CacheState) (pid : String) (ops : List CacheOp)
    (hclean : ∀ op ∈ ops, op.isCleanup = false)
    (h : (jsGet st.solutionCache pid).isSome = true) :
    introCount st pid ops = 0 := by
  induction ops generalizing st with
  | nil => rfl
  | cons op rest ih =>
    unfold introCount
    have hnointro : introduces st op pid = false := by
      unfold introduces
      have : (jsGet st.solutionCache pid).isNone = false := by
        cases hj : jsGet st.solutionCache pid with
        | none => rw [hj] at h; cases h
        | some v => rfl
      simp [this]
    rw [hnointro, if_neg (by simp)]
    simpa using ih (applyOp st op)
      (fun x hx => hclean x (List.mem_cons_of_mem _ hx))
      (mem_mono_applyOp st op pid (hclean op (by simp)) h)

/-- C1 (amended). At-most-once introduction and cached serving: along any
event trace that contains no cleanup eviction, at most one successful
gateway write-back introduces a given pattern id into the cache (once
present the id stays present, and a present id is never introduced again);
and `captureErrorContext` serves every sighting matched with confidence
above 85 from the cache at api cost 0, without touching the analysis
queue. A batch analysis request, however, can still pay the gateway for a
cached pattern — see the counterexample. -/
theorem at_most_once_introduction (st : CacheState) (ops : List CacheOp) (pid : String)
    (hclean : ∀ op ∈ ops, op.isCleanup = false) :
    introCount st pid ops ≤ 1 ∧
    (∀ (engine : List ErrorPattern) (cache : CacheState)
        (queue : List (String × QueuedError)) (ctx : ErrorContext) (now : Nat)
        (errorId : String),
      85 < (matchErrorPattern engine ctx).confidence →
      captureErrorContext engine cache queue ctx now errorId =
        (.local_pattern_match (matchErrorPattern engine ctx).confidence
          (matchErrorPattern engine ctx).pattern_type
          (getCachedSolution cache (matchErrorPattern engine ctx).pattern_id now).1 0,
         (getCachedSolution cache (matchErrorPattern engine ctx).pattern_id now).2,
         queue)) := by
  constructor
  · induction ops generalizing st with
    | nil => simp [introCount]
    | cons op rest ih =>
      unfold introCount
      by_cases hintro : introduces st op pid = true
      · rw [if_pos hintro]
        have hpost : (jsGet (applyOp st op).solutionCache pid).isSome = true := by
          unfold introduces at hintro
          simp only [Bool.and_eq_true] at hintro
          exact hintro.2
        rw [introCount_of_present (applyOp st op) pid rest
          (fun x hx => hclean x (List.mem_cons_of_mem _ hx)) hpost]
      · rw [if_neg (by simpa using hintro)]
        have := ih (applyOp st op) (fun x hx => hclean x (List.mem_cons_of_mem _ hx))
        omega
  · intro engine cache queue ctx now errorId hconf
    unfold captureErrorContext
    rw [if_pos hconf]

/-- C1 witness: a trace that pays for `p1` once and then sees it again —
the second gateway write-back does not introduce it — plus a concrete
high-confidence capture served from the cache at cost 0. -/
theorem at_most_once_introduction_witness :
    introCount {} "p1"
      [.gateway { patterns := [roundTripPattern] } 0,
       .getOp "p1" 1,
       .gateway { patterns := [roundTripPattern] } 2] ≤ 1 ∧
    captureErrorContext [dockerPortPattern] dockerCachedState [] dockerCtx 3 "err_9" =
      (.local_pattern_match 100 "docker_runtime_error"
        (getCachedSolution dockerCachedState "docker_port_already_in_use" 3).1 0,
       (getCachedSolution dockerCachedState "docker_port_already_in_use" 3).2, []) := by
  have h := at_most_once_introduction {}
    [.gateway { patterns := [roundTripPattern] } 0,
     .getOp "p1" 1,
     .gateway { patterns := [roundTripPattern] } 2] "p1"
    (by intro op hop; fin_cases hop <;> rfl)
  refine ⟨h.1, ?_⟩
  have h2 := h.2 [dockerPortPattern] dockerCachedState [] dockerCtx 3 "err_9" (by decide)
  have hm : matchErrorPattern [dockerPortPattern] dockerCtx =
      matchResultOf dockerPortPattern dockerCtx := by decide
  simpa [hm, matchResultOf, dockerPortPattern] using h2

/-- C1 counterexample: with the docker pattern id already cached, a batch
analysis at depth `comprehensive` on an error the classifier matches to
that very pattern id still invokes the external gateway at a positive
cost — `analyzeErrorPatterns` never consults the cache before dispatch, so
a cached pattern identity is paid for again. -/
theorem cached_pattern_paid_again :
    (jsGet dockerCachedState.solutionCache
      (matchErrorPattern [dockerPortPattern] dockerCtx).pattern_id).isSome = true ∧
    (analyzeErrorPatterns [dockerPortPattern] dockerCachedState [] 0 [dockerCtx]
      .comprehensive demoEnv).2.2.2 = true ∧
    0 < (analyzeErrorPatterns [dockerPortPattern] dockerCachedState [] 0 [dockerCtx]
      .comprehensive demoEnv).1.gatewayCost := by
  refine ⟨by decide, by decide, ?_⟩
  have hout : (analyzeErrorPatterns [dockerPortPattern] dockerCachedState [] 0 [dockerCtx]
      .comprehensive demoEnv).1.gatewayCost =
      calculateCallCost (estimateTokenUsage 400 80) := rfl
  rw [hout]
  norm_num [calculateCallCost, estimateTokenUsage]

end CosmicFountain
